import Mathlib

/-!
Verification development for `src/lib/mailchimp-import.js`.

The JavaScript module is shallowly embedded: pure functions become Lean
functions, thrown errors / rejected promises become `Except.error`, the
MongoDB collections become in-memory ordered lists of records, and the
MailChimp HTTP endpoints become oracle functions passed as parameters.
-/

/-! ## A small model of JavaScript values and objects -/

/-- Field values appearing inside the report sub-objects (`bounces`, `opens`,
`clicks`): numbers and strings are the only shapes the module touches. -/
inductive JsVal where
  | num (n : Int)
  | str (s : String)
deriving DecidableEq, Repr

/-- A JavaScript object is modelled as an ordered key-value list. -/
abbrev JsObj := List (String × JsVal)

/-- Property read `o[k]` (first entry with the key, if any). -/
def jsLookup (o : JsObj) (k : String) : Option JsVal :=
  (o.find? (fun p => p.1 == k)).map (fun p => p.2)

/-- JavaScript `delete o[k]`: removes the key when present, silent no-op when
the key is absent. -/
def jsDelete (o : JsObj) (k : String) : JsObj :=
  o.filter (fun p => p.1 != k)

/-! ## Tracking-key decoder (`decodeGaKey`, lines 23-86)

The source matches `gaKey` against the regex
`^([\d]{4})_([\w]{3})(\d)_(.*)$` and then switches on the 3-character month
token.  All quantifiers in the regex other than the final `(.*)` have fixed
width and the match is anchored at both ends, so a match exists exactly when
the string decomposes as 4 digits, an underscore, 3 word characters, a digit
and an underscore, followed by a remainder in which every character is
matched by `.` (i.e. is not a line terminator). -/

/-- JavaScript regex `\w` (ASCII letters, digits, underscore). -/
def isJsWordChar (c : Char) : Bool := c.isAlphanum || c == '_'

/-- JavaScript regex `.` without the `s` flag: any character that is not a
line terminator. -/
def isJsDotChar (c : Char) : Bool :=
  !(c == '\n' || c == '\r' || c == Char.ofNat 0x2028 || c == Char.ofNat 0x2029)

/-- Result of `gaKey.match(...)` at line 25: the four capture groups
(year digits, month token, promo digit, segment) or `none` when the regex
does not match (in which case the subsequent `match[1]` access throws). -/
def gaKeyMatch (s : String) : Option (List Char × List Char × Char × List Char) :=
  match s.data with
  | y1 :: y2 :: y3 :: y4 :: u1 :: m1 :: m2 :: m3 :: p :: u2 :: rest =>
    if y1.isDigit && y2.isDigit && y3.isDigit && y4.isDigit && u1 == '_' &&
        isJsWordChar m1 && isJsWordChar m2 && isJsWordChar m3 && p.isDigit && u2 == '_' &&
        rest.all isJsDotChar then
      some ([y1, y2, y3, y4], [m1, m2, m3], p, rest)
    else none
  | _ => none

/-- `Number` applied to a string of decimal digits (the only use the module
makes of it inside `decodeGaKey`). -/
def digitsToNat (cs : List Char) : Nat :=
  cs.foldl (fun a c => 10 * a + (c.toNat - 48)) 0

/-- The `switch (result.month)` table of lines 33-83: month token to
(month number, quarter), `none` for the `default:` arm. -/
def monthQuarter (m : String) : Option (Nat × Nat) :=
  if m = "jan" then some (1, 1)
  else if m = "feb" then some (2, 1)
  else if m = "mar" then some (3, 1)
  else if m = "apr" then some (4, 2)
  else if m = "may" then some (5, 2)
  else if m = "jun" then some (6, 2)
  else if m = "jul" then some (7, 3)
  else if m = "aug" then some (8, 3)
  else if m = "sep" then some (9, 3)
  else if m = "oct" then some (10, 4)
  else if m = "nov" then some (11, 4)
  else if m = "dec" then some (12, 4)
  else none

/-- The decoded tracking key (the `result` object of `decodeGaKey`). -/
structure TrackingKey where
  year : Nat
  month : Nat
  quarter : Nat
  promo_num : Nat
  segment : String
deriving DecidableEq, Repr

/-- Error produced by `match[1]` when the regex at line 25 did not match:
this is the module's MalformedKey failure mode. -/
def malformedKeyMsg : String := "TypeError: Cannot read properties of null"

/-- `decodeGaKey` (lines 23-86).  A non-matching key throws a `TypeError`
(MalformedKey); a matching key whose month token is not one of the twelve
lowercase abbreviations throws `invalid-month-<token>` (UnknownMonth);
otherwise the decoded `TrackingKey` is returned. -/
def decodeGaKey (gaKey : String) : Except String TrackingKey :=
  match gaKeyMatch gaKey with
  | none => .error malformedKeyMsg
  | some (ycs, mcs, pc, segcs) =>
    match monthQuarter (String.mk mcs) with
    | none => .error ("invalid-month-" ++ String.mk mcs)
    | some (mo, q) =>
      .ok { year := digitsToNat ycs, month := mo, quarter := q,
            promo_num := pc.toNat - 48, segment := String.mk segcs }

/-- The twelve standard lowercase 3-letter English month abbreviations. -/
def monthAbbrevs : List String :=
  ["jan", "feb", "mar", "apr", "may", "jun", "jul", "aug", "sep", "oct", "nov", "dec"]

/-- Spec-side month table, written from the specification's words: the
twelve standard lowercase abbreviations mapped to 1..12.  Used to compare
the implementation's switch table against the spec. -/
def specMonthNumber (m : String) : Option Nat :=
  if m = "jan" then some 1
  else if m = "feb" then some 2
  else if m = "mar" then some 3
  else if m = "apr" then some 4
  else if m = "may" then some 5
  else if m = "jun" then some 6
  else if m = "jul" then some 7
  else if m = "aug" then some 8
  else if m = "sep" then some 9
  else if m = "oct" then some 10
  else if m = "nov" then some 11
  else if m = "dec" then some 12
  else none

/-- Spec-side pattern written from the claim's words, with a letters-only
month slot: `<4-digit year>_<3-LETTER month><1-digit promo>_<segment>`.
Used to exhibit the divergence between the claim's pattern and the
implementation's `[\w]{3}` month slot. -/
def claimedLetterPattern (s : String) : Bool :=
  match s.data with
  | y1 :: y2 :: y3 :: y4 :: u1 :: m1 :: m2 :: m3 :: p :: u2 :: _ =>
    y1.isDigit && y2.isDigit && y3.isDigit && y4.isDigit && u1 == '_' &&
      m1.isAlpha && m2.isAlpha && m3.isAlpha && p.isDigit && u2 == '_'
  | _ => false

instance {ε α : Type} [DecidableEq ε] [DecidableEq α] : DecidableEq (Except ε α) := fun a b =>
  match a, b with
  | .ok x, .ok y => if h : x = y then .isTrue (by rw [h]) else .isFalse (by simp [h])
  | .error x, .error y => if h : x = y then .isTrue (by rw [h]) else .isFalse (by simp [h])
  | .ok _, .error _ => .isFalse (by simp)
  | .error _, .ok _ => .isFalse (by simp)

/-! ## Report normalizer (`formatCampaignReportData`, lines 110-139) -/

/-- One entry of `variate_settings.combinations`: the module only reads the
child campaign `id`. -/
structure VariateCombination where
  id : String
deriving DecidableEq, Repr

/-- The `variate_settings` object: the module only reads `combinations`. -/
structure VariateSettings where
  combinations : List VariateCombination
deriving DecidableEq, Repr

/-- A stored campaign document as read back by `fetchReportData` (projection
`_id, type, variate_settings, year, quarter, month, promo_num, segment`),
plus `list_id`, on which the `startTime` selection filters.  The code reads
`variate_settings` only on documents of type `variate`; for other documents
the field is modelled with an empty default. -/
structure CampaignDoc where
  _id : String
  list_id : String
  type : String
  variate_settings : VariateSettings := ⟨[]⟩
  year : Nat
  quarter : Nat
  month : Nat
  promo_num : Nat
  segment : String
deriving DecidableEq, Repr

/-- A raw report payload from `GET reports/{id}`. -/
structure RawReport where
  id : String
  emails_sent : Int
  abuse_reports : Int
  unsubscribed : Int
  bounces : JsObj
  opens : JsObj
  clicks : JsObj
deriving DecidableEq, Repr

/-- The optional `variateParams` argument: its two documented shapes share
one object type with optional fields, as in JavaScript. -/
structure VariateParams where
  type : String
  child_ids : Option (List String) := none
  parent_id : Option String := none
deriving DecidableEq, Repr

/-- A stored report record (the `res` object of lines 118-136). -/
structure Report where
  _id : String
  site : String
  type : String
  year : Nat
  quarter : Nat
  month : Nat
  promo_num : Nat
  segment : String
  emails_sent : Int
  abuse_reports : Int
  unsubscribed : Int
  bounces : JsObj
  opens : JsObj
  clicks : JsObj
  child_ids : Option (List String) := none
  parent_id : Option String := none
deriving DecidableEq, Repr

/-- `formatCampaignReportData` (lines 110-139).  The function first deletes
the six aggregate sub-fields from `reportData` — in JavaScript this mutates
the caller's object — and then builds the stored record from the mutated
data.  The embedding returns the record together with the post-call state
of the `reportData` argument, so the in-place mutation stays observable.
The truthiness tests of lines 135-136 are kept: an array-valued field is
truthy whenever present (even when empty), a string only when non-empty. -/
def formatCampaignReportData (site : String) (campaignData : CampaignDoc)
    (reportData : RawReport) (variateParams : Option VariateParams) :
    Report × RawReport :=
  let reportData :=
    { reportData with
      bounces := jsDelete reportData.bounces "syntax_errors",
      opens := jsDelete (jsDelete reportData.opens "opens_total") "last_open",
      clicks := jsDelete (jsDelete (jsDelete reportData.clicks "clicks_total")
        "unique_clicks") "last_click" }
  let res : Report :=
    { _id := reportData.id, site := site,
      type := match variateParams with
        | some vp => vp.type
        | none => campaignData.type,
      year := campaignData.year, quarter := campaignData.quarter,
      month := campaignData.month, promo_num := campaignData.promo_num,
      segment := campaignData.segment,
      emails_sent := reportData.emails_sent,
      abuse_reports := reportData.abuse_reports,
      unsubscribed := reportData.unsubscribed,
      bounces := reportData.bounces, opens := reportData.opens,
      clicks := reportData.clicks }
  let res :=
    match variateParams with
    | some vp =>
      match vp.child_ids with
      | some l => { res with child_ids := some l }
      | none =>
        match vp.parent_id with
        | some pid => if pid = "" then res else { res with parent_id := some pid }
        | none => res
    | none => res
  (res, reportData)

/-- Sample campaign document used by concrete witnesses. -/
def sampleDoc : CampaignDoc :=
  { _id := "camp1", list_id := "list1", type := "regular",
    year := 2020, quarter := 1, month := 1, promo_num := 2, segment := "sku_most" }

/-- Sample raw report that contains none of the six stripped sub-fields. -/
def sampleRawClean : RawReport :=
  { id := "rep1", emails_sent := 100, abuse_reports := 0, unsubscribed := 1,
    bounces := [("hard_bounces", .num 2)],
    opens := [("unique_opens", .num 5)],
    clicks := [("clicks_rate", .num 1)] }

/-! ## Persistence (`importData`, lines 221-236)

`importData` builds one `replaceOne` operation per record (filter on the
record's `_id`, `upsert: true`) and executes them as a single unordered
bulk write against the collection selected by `type`; any other `type`
value rejects with `invalid-type-<type>` without touching storage.  A
MongoDB collection is modelled as an ordered list of documents; a
`replaceOne` with upsert replaces the documents matching the filter `_id`
in place and appends the replacement when no document matches. -/

/-- A stored document: its `_id` plus the remaining payload. -/
structure DbRecord where
  _id : String
  body : JsObj := []
deriving DecidableEq, Repr

/-- One element of the `replaceOneArr` bulk array (lines 224-230). -/
structure ReplaceOneOp where
  filter_id : String
  replacement : DbRecord
  upsert : Bool
deriving DecidableEq, Repr

/-- Whether the collection holds a document with the given `_id`. -/
def containsKey (s : List DbRecord) (k : String) : Bool :=
  s.any (fun r => r._id == k)

/-- First stored document with the given `_id`, if any. -/
def recLookup (s : List DbRecord) (k : String) : Option DbRecord :=
  s.find? (fun r => r._id == k)

/-- One `replaceOne` operation: replace the documents matching the `_id`
filter when present, append the replacement when absent and `upsert` is
set, otherwise leave the collection unchanged. -/
def replaceOneUpsert (s : List DbRecord) (op : ReplaceOneOp) : List DbRecord :=
  if containsKey s op.filter_id then
    s.map (fun r => if r._id == op.filter_id then op.replacement else r)
  else if op.upsert then s ++ [op.replacement]
  else s

/-- `allBulkUnOrdered`: the unordered bulk write applies every operation to
the collection (item order of application; unordered refers to the store
not aborting sibling items, which the list model has no failing items to
exercise). -/
def allBulkUnOrdered (s : List DbRecord) (ops : List ReplaceOneOp) : List DbRecord :=
  ops.foldl replaceOneUpsert s

/-- The two MongoDB collections held by a `MailChimpImport` instance. -/
structure DB where
  campaignData : List DbRecord
  campaignReport : List DbRecord
deriving DecidableEq, Repr

/-- The `replaceOne` wrapper built for each element at lines 224-230. -/
def mkReplaceOp (element : DbRecord) : ReplaceOneOp :=
  { filter_id := element._id, replacement := element, upsert := true }

/-- `importData` (lines 221-236): build the `replaceOneArr`, then dispatch
on `type` — `campaignData` and `campaignReport` run one unordered bulk
write on their collection, anything else rejects with
`invalid-type-<type>` and no write happens. -/
def importData (db : DB) (type : String) (importArr : List DbRecord) :
    Except String DB :=
  let replaceOneArr := importArr.map mkReplaceOp
  if type = "campaignData" then
    .ok { db with campaignData := allBulkUnOrdered db.campaignData replaceOneArr }
  else if type = "campaignReport" then
    .ok { db with campaignReport := allBulkUnOrdered db.campaignReport replaceOneArr }
  else .error ("invalid-type-" ++ type)

/-- Sample record and database used by concrete witnesses. -/
def sampleRec : DbRecord := { _id := "r1" }

/-- Sample empty database used by concrete witnesses. -/
def sampleDB : DB := { campaignData := [], campaignReport := [] }

/-! ## Rate-limited batch windows (lines 292-305 and 329-339)

Both `fetchCampaignData` and `fetchReportData` issue their pending requests
with the same loop pattern: push a request promise and, when
`loopCount >= MAX_CONCURRENT_CALLS - 1` or the loop is at its last index,
`await Promise.all` of the pending window, flush its results in order and
reset the counter; otherwise increment the counter.  `windowsGo acc cnt l`
runs one loop iteration per remaining element (`acc` is the pending
`loopData`, `cnt` is `loopCount`, and `rest.isEmpty` is
`i >= length - 1`); it returns the consecutive windows of concurrently
in-flight requests.  Awaiting each window in full before the next starts is
what the window list models: window `n + 1` is issued only after window `n`
is complete. -/

/-- Line 11: MailChimp limits concurrent api calls to 10. -/
def MAX_CONCURRENT_CALLS : Nat := 10

def windowsGo {α : Type} : List α → Nat → List α → List (List α)
  | _, _, [] => []
  | acc, cnt, x :: rest =>
    if MAX_CONCURRENT_CALLS - 1 ≤ cnt ∨ rest.isEmpty = true then
      (acc ++ [x]) :: windowsGo [] 0 rest
    else
      windowsGo (acc ++ [x]) (cnt + 1) rest

/-- The consecutive request windows for a task list. -/
def batchWindows {α : Type} (l : List α) : List (List α) := windowsGo [] 0 l

/-! ## Report importer (`fetchReportData`, lines 314-363) -/

/-- `Number(s.substring(a, b))` as used at line 324.  `none` models `NaN`;
an all-digit substring (the empty substring included, since
`Number("") === 0`) converts to its numeric value.  Claims only exercise
well-formed `YYYY-MM-DD` strings; `NaN` never reaches a comparison there,
so its MongoDB comparison behaviour is modelled as non-matching. -/
def jsNumberOfSub (s : String) (a b : Nat) : Option Nat :=
  let sub := (s.data.drop a).take (b - a)
  if sub.all Char.isDigit then some (digitsToNat sub) else none

/-- MongoDB filter `{ field: { $gt: q } }` on a numeric document field. -/
def mongoGt (v : Nat) (q : Option Nat) : Bool :=
  match q with
  | some m => decide (m < v)
  | none => false

/-- MongoDB filter `{ field: { $gte: q } }` on a numeric document field. -/
def mongoGte (v : Nat) (q : Option Nat) : Bool :=
  match q with
  | some m => decide (m ≤ v)
  | none => false

/-- Error thrown at line 324 when `startTime` is not a string:
`startTime.substring` is read unconditionally, before the
`campaignId`/`startTime` ternary of lines 325-327. -/
def startTimeTypeError : String :=
  "TypeError: Cannot read properties of undefined (reading substring)"

/-- Campaign selection of lines 323-327, against the in-memory campaigns
collection `db` and the instance's site-to-audience map.  Line 324 computes
`Number(startTime.substring(0, 4))` and `Number(startTime.substring(5, 7))`
unconditionally, so a missing `startTime` throws before any selection —
even when `campaignId` is provided.  With `startTime` a string, a string
`campaignId` selects by `_id`; otherwise the ternary's second alternative
selects the stored campaigns whose `list_id` is the site's audience id and
which satisfy `{ $or: [{ year: { $gt: y } }, { year: { $gte: y },
month: { $gte: m } }] }`.  The third alternative
(`getAllCampaignDbDatabySite`) would require `startTime` not to be a string
and is unreachable. -/
def fetchReportDocs (db : List CampaignDoc) (audienceId : String → String)
    (site : String) (startTime campaignId : Option String) :
    Except String (List CampaignDoc) :=
  match startTime with
  | none => .error startTimeTypeError
  | some st =>
    let year := jsNumberOfSub st 0 4
    let month := jsNumberOfSub st 5 7
    match campaignId with
    | some cid => .ok (db.filter (fun d => d._id == cid))
    | none =>
      .ok (db.filter (fun d => d.list_id == audienceId site &&
        (mongoGt d.year year || (mongoGte d.year year && mongoGte d.month month))))

/-- The batched report fetch of lines 329-339: each window of selected
documents is issued concurrently (at most `MAX_CONCURRENT_CALLS` in
flight), awaited in full, and its results pushed in order onto
`mcReportData` before the next window starts.  `getReport` is the oracle
for `GET reports/{id}`. -/
def fetchMcReportData (getReport : String → RawReport) (docs : List CampaignDoc) :
    List RawReport :=
  (batchWindows docs).foldl (fun acc w => acc ++ w.map (fun d => getReport d._id)) []

/-- The report-building loop of lines 341-360, walking the selected
documents together with `mcReportData` at the same index: a `variate`
document contributes one `variate-parent` record (its `child_ids` the
combination ids in order) followed by one individually fetched
`variate-child` record per child id in the same order; any other document
contributes its single normalized record. -/
def buildReportData (site : String) (getReport : String → RawReport) :
    List CampaignDoc → List RawReport → List Report
  | d :: ds, m :: ms =>
    (if d.type = "variate" then
      (formatCampaignReportData site d m
        (some { type := "variate-parent",
                child_ids := some (d.variate_settings.combinations.map
                  (fun item => item.id)) })).1 ::
        (d.variate_settings.combinations.map (fun item => item.id)).map (fun c =>
          (formatCampaignReportData site d (getReport c)
            (some { type := "variate-child", parent_id := some d._id })).1)
    else
      [(formatCampaignReportData site d m none).1]) ++ buildReportData site getReport ds ms
  | _, _ => []

/-- `fetchReportData` (lines 322-363): select the source campaigns, fetch
their raw reports in rate-limited windows, then normalize each (expanding
variate campaigns into one parent and one record per child). -/
def fetchReportData (db : List CampaignDoc) (audienceId : String → String)
    (getReport : String → RawReport) (site : String)
    (startTime campaignId : Option String) : Except String (List Report) :=
  match fetchReportDocs db audienceId site startTime campaignId with
  | .error e => .error e
  | .ok docs => .ok (buildReportData site getReport docs (fetchMcReportData getReport docs))

/-- Sample stored variate campaign with two combinations, for witnesses. -/
def sampleVariateDoc : CampaignDoc :=
  { _id := "campV", list_id := "list1", type := "variate",
    variate_settings := ⟨[⟨"A"⟩, ⟨"B"⟩]⟩,
    year := 2021, quarter := 2, month := 4, promo_num := 1, segment := "all" }

/-! ## Theorems -/

theorem data_mk (l : List Char) : (String.mk l).data = l := rfl

theorem mk_data (s : String) : String.mk s.data = s := by
  cases s
  rfl

theorem gaKeyMatch_build (y1 y2 y3 y4 m1 m2 m3 p : Char) (rest : List Char)
    (hc : (y1.isDigit && y2.isDigit && y3.isDigit && y4.isDigit && ('_' == '_') &&
        isJsWordChar m1 && isJsWordChar m2 && isJsWordChar m3 && p.isDigit && ('_' == '_') &&
        rest.all isJsDotChar) = true) :
    gaKeyMatch (String.mk (y1 :: y2 :: y3 :: y4 :: '_' :: m1 :: m2 :: m3 :: p :: '_' :: rest)) =
      some ([y1, y2, y3, y4], [m1, m2, m3], p, rest) := by
  simp only [gaKeyMatch, data_mk]
  rw [if_pos hc]

theorem decodeGaKey_build (y1 y2 y3 y4 m1 m2 m3 p : Char) (seg : List Char)
    (h1 : y1.isDigit = true) (h2 : y2.isDigit = true) (h3 : y3.isDigit = true)
    (h4 : y4.isDigit = true) (hw1 : isJsWordChar m1 = true) (hw2 : isJsWordChar m2 = true)
    (hw3 : isJsWordChar m3 = true) (hp : p.isDigit = true)
    (hseg : seg.all isJsDotChar = true) :
    decodeGaKey (String.mk (y1 :: y2 :: y3 :: y4 :: '_' :: m1 :: m2 :: m3 :: p :: '_' :: seg)) =
      match monthQuarter (String.mk [m1, m2, m3]) with
      | none => .error ("invalid-month-" ++ String.mk [m1, m2, m3])
      | some (mo, q) =>
        .ok { year := digitsToNat [y1, y2, y3, y4], month := mo, quarter := q,
              promo_num := p.toNat - 48, segment := String.mk seg } := by
  rw [decodeGaKey, gaKeyMatch_build y1 y2 y3 y4 m1 m2 m3 p seg
    (by simp [h1, h2, h3, h4, hw1, hw2, hw3, hp, hseg])]

theorem specMonth_monthQuarter (tok : String) (htok : tok ∈ monthAbbrevs) :
    ∃ mo, specMonthNumber tok = some mo ∧ monthQuarter tok = some (mo, (mo - 1) / 3 + 1) := by
  fin_cases htok
  exacts [⟨1, by decide, by decide⟩, ⟨2, by decide, by decide⟩, ⟨3, by decide, by decide⟩,
    ⟨4, by decide, by decide⟩, ⟨5, by decide, by decide⟩, ⟨6, by decide, by decide⟩,
    ⟨7, by decide, by decide⟩, ⟨8, by decide, by decide⟩, ⟨9, by decide, by decide⟩,
    ⟨10, by decide, by decide⟩, ⟨11, by decide, by decide⟩, ⟨12, by decide, by decide⟩]

theorem monthQuarter_eq_none_of_not_mem (t : String) (h : t ∉ monthAbbrevs) :
    monthQuarter t = none := by
  simp only [monthAbbrevs, List.mem_cons, List.not_mem_nil, or_false, not_or] at h
  obtain ⟨n1, n2, n3, n4, n5, n6, n7, n8, n9, n10, n11, n12⟩ := h
  unfold monthQuarter
  rw [if_neg n1, if_neg n2, if_neg n3, if_neg n4, if_neg n5, if_neg n6, if_neg n7,
    if_neg n8, if_neg n9, if_neg n10, if_neg n11, if_neg n12]

theorem monthAbbrevs_data (tok : String) (h : tok ∈ monthAbbrevs) :
    ∃ c1 c2 c3, tok.data = [c1, c2, c3] ∧ isJsWordChar c1 = true ∧
      isJsWordChar c2 = true ∧ isJsWordChar c3 = true := by
  fin_cases h <;> exact ⟨_, _, _, rfl, rfl, rfl, rfl⟩

/-- C3: for every input string of the form
`<4-digit year>_<3-letter lowercase month abbreviation><1-digit promo>_<segment>`
(the segment being any run of characters matched by the regex's `.`),
`decodeGaKey` returns the year as the integer value of its four digits, the
month number 1..12 given by the token, the quarter derived by the fixed
table (months 1-3 give 1, 4-6 give 2, 7-9 give 3, 10-12 give 4, i.e.
`(month - 1) / 3 + 1`), the promo digit as an integer, and the exact
trailing segment, embedded underscores included. -/
theorem decodeGaKey_valid_key (y1 y2 y3 y4 p : Char) (tok seg : String)
    (h1 : y1.isDigit = true) (h2 : y2.isDigit = true) (h3 : y3.isDigit = true)
    (h4 : y4.isDigit = true) (hp : p.isDigit = true)
    (htok : tok ∈ monthAbbrevs) (hseg : seg.data.all isJsDotChar = true) :
    ∃ m, specMonthNumber tok = some m ∧
      decodeGaKey (String.mk ([y1, y2, y3, y4, '_'] ++ tok.data ++ [p, '_'] ++ seg.data)) =
        .ok { year := 1000 * (y1.toNat - 48) + 100 * (y2.toNat - 48) +
                10 * (y3.toNat - 48) + (y4.toNat - 48),
              month := m, quarter := (m - 1) / 3 + 1,
              promo_num := p.toNat - 48, segment := seg } := by
  obtain ⟨mo, hmo, htab⟩ := specMonth_monthQuarter tok htok
  obtain ⟨c1, c2, c3, hdata, hw1, hw2, hw3⟩ := monthAbbrevs_data tok htok
  refine ⟨mo, hmo, ?_⟩
  rw [hdata]
  have hcons : ([y1, y2, y3, y4, '_'] ++ [c1, c2, c3] ++ [p, '_'] ++ seg.data) =
      y1 :: y2 :: y3 :: y4 :: '_' :: c1 :: c2 :: c3 :: p :: '_' :: seg.data := by
    simp
  rw [hcons, decodeGaKey_build y1 y2 y3 y4 c1 c2 c3 p seg.data h1 h2 h3 h4 hw1 hw2 hw3 hp hseg]
  have htok' : String.mk [c1, c2, c3] = tok := by rw [← hdata, mk_data]
  rw [htok', htab]
  have hyear : digitsToNat [y1, y2, y3, y4] =
      1000 * (y1.toNat - 48) + 100 * (y2.toNat - 48) + 10 * (y3.toNat - 48) + (y4.toNat - 48) := by
    simp [digitsToNat]
    ring
  rw [mk_data seg, hyear]

/-- Witness for C3 at the spec's example key `2020_jan2_sku_most`. -/
theorem decodeGaKey_valid_key_witness :
    ∃ m, specMonthNumber "jan" = some m ∧
      decodeGaKey (String.mk (['2', '0', '2', '0', '_'] ++ ("jan" : String).data ++
          ['2', '_'] ++ ("sku_most" : String).data)) =
        .ok { year := 1000 * ('2'.toNat - 48) + 100 * ('0'.toNat - 48) +
                10 * ('2'.toNat - 48) + ('0'.toNat - 48),
              month := m, quarter := (m - 1) / 3 + 1,
              promo_num := '2'.toNat - 48, segment := "sku_most" } :=
  decodeGaKey_valid_key '2' '0' '2' '0' '2' "jan" "sku_most" rfl rfl rfl rfl rfl
    (by decide) (by decide)

/-- C4 counterexample: the claim says every input not matching
`<4-digit year>_<3-LETTER month><1-digit promo>_<segment>` fails with the
MalformedKey error, but `2020_1232_seg` has a non-letter month slot (so it
does not match the claimed pattern) and still fails with the UnknownMonth
error `invalid-month-123`, because the implementation's month slot is
`[\w]{3}` (word characters), not letters. -/
theorem decodeGaKey_letter_pattern_counterexample :
    claimedLetterPattern "2020_1232_seg" = false ∧
    decodeGaKey "2020_1232_seg" = .error "invalid-month-123" ∧
    "invalid-month-123" ≠ malformedKeyMsg := by
  decide

/-- C4 (amended): `decodeGaKey` fails with the MalformedKey error for every
input that does not decompose as 4 digits, underscore, 3 word characters
(letters, digits or underscore — not only letters), a digit, underscore and
a remainder free of line terminators; and it fails with the UnknownMonth
error `invalid-month-<token>` for every input that does so decompose but
whose 3-character token is not one of the twelve lowercase month
abbreviations.  In both cases an error is thrown, never a partial result. -/
theorem decodeGaKey_failure_modes (s : String) :
    (¬ (∃ y1 y2 y3 y4 m1 m2 m3 p rest,
        s.data = y1 :: y2 :: y3 :: y4 :: '_' :: m1 :: m2 :: m3 :: p :: '_' :: rest ∧
        (y1.isDigit && y2.isDigit && y3.isDigit && y4.isDigit &&
          isJsWordChar m1 && isJsWordChar m2 && isJsWordChar m3 && p.isDigit &&
          rest.all isJsDotChar) = true) →
      decodeGaKey s = .error malformedKeyMsg) ∧
    (∀ y1 y2 y3 y4 m1 m2 m3 p rest,
      s.data = y1 :: y2 :: y3 :: y4 :: '_' :: m1 :: m2 :: m3 :: p :: '_' :: rest →
      (y1.isDigit && y2.isDigit && y3.isDigit && y4.isDigit &&
        isJsWordChar m1 && isJsWordChar m2 && isJsWordChar m3 && p.isDigit &&
        rest.all isJsDotChar) = true →
      String.mk [m1, m2, m3] ∉ monthAbbrevs →
      decodeGaKey s = .error ("invalid-month-" ++ String.mk [m1, m2, m3])) := by
  constructor
  · intro h
    have hnone : gaKeyMatch s = none := by
      unfold gaKeyMatch
      split
      · rename_i y1 y2 y3 y4 u1 m1 m2 m3 p u2 rest heq
        by_cases hc : (y1.isDigit && y2.isDigit && y3.isDigit && y4.isDigit && (u1 == '_') &&
            isJsWordChar m1 && isJsWordChar m2 && isJsWordChar m3 && p.isDigit && (u2 == '_') &&
            rest.all isJsDotChar) = true
        · exfalso
          simp only [Bool.and_eq_true, beq_iff_eq, and_assoc] at hc
          obtain ⟨hd1, hd2, hd3, hd4, hu1, hw1, hw2, hw3, hp, hu2, hall⟩ := hc
          subst hu1
          subst hu2
          exact h ⟨y1, y2, y3, y4, m1, m2, m3, p, rest, heq,
            by simp [hd1, hd2, hd3, hd4, hw1, hw2, hw3, hp, hall]⟩
        · rw [if_neg (by simpa using hc)]
      · rfl
    simp [decodeGaKey, hnone]
  · intro y1 y2 y3 y4 m1 m2 m3 p rest heq hcond hmem
    have hs : s = String.mk (y1 :: y2 :: y3 :: y4 :: '_' :: m1 :: m2 :: m3 :: p :: '_' :: rest) := by
      rw [← heq, mk_data]
    simp only [Bool.and_eq_true, and_assoc] at hcond
    obtain ⟨hd1, hd2, hd3, hd4, hw1, hw2, hw3, hp, hall⟩ := hcond
    have hsome : gaKeyMatch s = some ([y1, y2, y3, y4], [m1, m2, m3], p, rest) := by
      rw [hs]
      exact gaKeyMatch_build y1 y2 y3 y4 m1 m2 m3 p rest
        (by simp [hd1, hd2, hd3, hd4, hw1, hw2, hw3, hp, hall])
    simp [decodeGaKey, hsome, monthQuarter_eq_none_of_not_mem (String.mk [m1, m2, m3]) hmem]

/-- Witness for the two failure modes of C4 at the concrete inputs `zzz`
(no match) and `2020_xyz2_seg` (the spec's UnknownMonth example). -/
theorem decodeGaKey_failure_modes_witness :
    decodeGaKey "zzz" = .error malformedKeyMsg ∧
    decodeGaKey "2020_xyz2_seg" = .error ("invalid-month-" ++ String.mk ['x', 'y', 'z']) := by
  constructor
  · refine (decodeGaKey_failure_modes "zzz").1 ?_
    rintro ⟨y1, y2, y3, y4, m1, m2, m3, p, rest, heq, -⟩
    simp at heq
  · exact (decodeGaKey_failure_modes "2020_xyz2_seg").2 '2' '0' '2' '0' 'x' 'y' 'z' '2'
      ['s', 'e', 'g'] rfl (by decide) (by decide)

theorem jsLookup_jsDelete (o : JsObj) (k k' : String) :
    jsLookup (jsDelete o k) k' = if k' = k then none else jsLookup o k' := by
  induction o with
  | nil => simp [jsLookup, jsDelete]
  | cons hd tl ih =>
    by_cases h1 : hd.1 = k <;> by_cases h2 : hd.1 = k' <;>
      simp_all [jsLookup, jsDelete, List.filter_cons, List.find?_cons]

theorem jsDelete_eq_self (o : JsObj) (k : String) (h : jsLookup o k = none) :
    jsDelete o k = o := by
  rw [jsLookup, Option.map_eq_none'] at h
  rw [jsDelete]
  refine List.filter_eq_self.mpr fun a ha => ?_
  have := List.find?_eq_none.mp h a ha
  simpa [bne] using this

theorem formatCampaignReportData_snd (site : String) (cd : CampaignDoc)
    (rd : RawReport) (vp : Option VariateParams) :
    (formatCampaignReportData site cd rd vp).2 =
      { rd with
        bounces := jsDelete rd.bounces "syntax_errors",
        opens := jsDelete (jsDelete rd.opens "opens_total") "last_open",
        clicks := jsDelete (jsDelete (jsDelete rd.clicks "clicks_total")
          "unique_clicks") "last_click" } := rfl

theorem formatCampaignReportData_fst_shared (site : String) (cd : CampaignDoc)
    (rd : RawReport) (vp : Option VariateParams) :
    (formatCampaignReportData site cd rd vp).1.bounces =
      (formatCampaignReportData site cd rd vp).2.bounces ∧
    (formatCampaignReportData site cd rd vp).1.opens =
      (formatCampaignReportData site cd rd vp).2.opens ∧
    (formatCampaignReportData site cd rd vp).1.clicks =
      (formatCampaignReportData site cd rd vp).2.clicks := by
  rcases vp with - | v
  · exact ⟨rfl, rfl, rfl⟩
  · rcases hcs : v.child_ids with - | l
    · rcases hpi : v.parent_id with - | pid
      · simp [formatCampaignReportData, hcs, hpi]
      · by_cases hpe : pid = "" <;> simp [formatCampaignReportData, hcs, hpi, hpe]
    · simp [formatCampaignReportData, hcs]

/-- C5: `formatCampaignReportData` removes exactly the six sub-fields
`bounces.syntax_errors`, `opens.opens_total`, `opens.last_open`,
`clicks.clicks_total`, `clicks.unique_clicks`, `clicks.last_click` from the
raw report; the removal happens on the caller's object (the post-call state
of the argument, the second component here, is the stripped object and the
returned record aliases it); every other key of the three sub-objects and
every other top-level field is unchanged; and removing an absent sub-field
is a no-op (a raw report containing none of the six keys passes through
identically), never an error. -/
theorem formatCampaignReportData_strips (site : String) (cd : CampaignDoc)
    (rd : RawReport) (vp : Option VariateParams) :
    (∀ k, jsLookup (formatCampaignReportData site cd rd vp).2.bounces k =
      if k = "syntax_errors" then none else jsLookup rd.bounces k) ∧
    (∀ k, jsLookup (formatCampaignReportData site cd rd vp).2.opens k =
      if k = "opens_total" ∨ k = "last_open" then none else jsLookup rd.opens k) ∧
    (∀ k, jsLookup (formatCampaignReportData site cd rd vp).2.clicks k =
      if k = "clicks_total" ∨ k = "unique_clicks" ∨ k = "last_click" then none
      else jsLookup rd.clicks k) ∧
    (formatCampaignReportData site cd rd vp).2.id = rd.id ∧
    (formatCampaignReportData site cd rd vp).2.emails_sent = rd.emails_sent ∧
    (formatCampaignReportData site cd rd vp).2.abuse_reports = rd.abuse_reports ∧
    (formatCampaignReportData site cd rd vp).2.unsubscribed = rd.unsubscribed ∧
    (formatCampaignReportData site cd rd vp).1.bounces =
      (formatCampaignReportData site cd rd vp).2.bounces ∧
    (formatCampaignReportData site cd rd vp).1.opens =
      (formatCampaignReportData site cd rd vp).2.opens ∧
    (formatCampaignReportData site cd rd vp).1.clicks =
      (formatCampaignReportData site cd rd vp).2.clicks ∧
    (jsLookup rd.bounces "syntax_errors" = none →
      jsLookup rd.opens "opens_total" = none →
      jsLookup rd.opens "last_open" = none →
      jsLookup rd.clicks "clicks_total" = none →
      jsLookup rd.clicks "unique_clicks" = none →
      jsLookup rd.clicks "last_click" = none →
      (formatCampaignReportData site cd rd vp).2 = rd) := by
  obtain ⟨hb, ho, hc⟩ := formatCampaignReportData_fst_shared site cd rd vp
  rw [formatCampaignReportData_snd] at *
  refine ⟨?_, ?_, ?_, rfl, rfl, rfl, rfl, hb, ho, hc, ?_⟩
  · intro k
    exact jsLookup_jsDelete rd.bounces "syntax_errors" k
  · intro k
    by_cases ha : k = "opens_total" <;> by_cases hb2 : k = "last_open" <;>
      simp [jsLookup_jsDelete, ha, hb2]
  · intro k
    by_cases ha : k = "clicks_total" <;> by_cases hb2 : k = "unique_clicks" <;>
      by_cases hc2 : k = "last_click" <;> simp [jsLookup_jsDelete, ha, hb2, hc2]
  · intro a1 a2 a3 a4 a5 a6
    rw [jsDelete_eq_self rd.bounces _ a1, jsDelete_eq_self rd.opens _ a2,
      jsDelete_eq_self rd.opens _ a3, jsDelete_eq_self rd.clicks _ a4,
      jsDelete_eq_self rd.clicks _ a5, jsDelete_eq_self rd.clicks _ a6]

/-- Witness for C5: a raw report with none of the six keys passes through
the strip untouched. -/
theorem formatCampaignReportData_strips_witness :
    (formatCampaignReportData "site1" sampleDoc sampleRawClean none).2 = sampleRawClean :=
  (formatCampaignReportData_strips "site1" sampleDoc sampleRawClean
    none).2.2.2.2.2.2.2.2.2.2 rfl rfl rfl rfl rfl rfl

/-- C6: the record built by `formatCampaignReportData` takes its `type` from
`variateParams.type` when a variant role is given and from
`campaignData.type` otherwise; and, for the variant-role shapes the module
actually passes (a `variate-parent` role always carries `child_ids`, a
`variate-child` role always carries a non-empty `parent_id`, no role means a
plain `regular`/`variate` campaign), a variate-derived record carries
exactly one of `child_ids`/`parent_id` while a plain `regular`/`variate`
record carries neither. -/
theorem formatCampaignReportData_type_and_variate_fields (site : String)
    (cd : CampaignDoc) (rd : RawReport) (vp : Option VariateParams)
    (hvp : ∀ v, vp = some v →
      (v.type = "variate-parent" ∧ v.child_ids.isSome = true ∧ v.parent_id = none) ∨
      (v.type = "variate-child" ∧ v.child_ids = none ∧
        ∃ pid, v.parent_id = some pid ∧ pid ≠ ""))
    (hcd : vp = none → cd.type = "regular" ∨ cd.type = "variate") :
    ((formatCampaignReportData site cd rd vp).1.type =
      match vp with
      | some v => v.type
      | none => cd.type) ∧
    (((formatCampaignReportData site cd rd vp).1.type = "variate-parent" ∨
      (formatCampaignReportData site cd rd vp).1.type = "variate-child") →
      ((formatCampaignReportData site cd rd vp).1.child_ids.isSome = true ∧
        (formatCampaignReportData site cd rd vp).1.parent_id = none) ∨
      ((formatCampaignReportData site cd rd vp).1.child_ids = none ∧
        (formatCampaignReportData site cd rd vp).1.parent_id.isSome = true)) ∧
    (((formatCampaignReportData site cd rd vp).1.type = "regular" ∨
      (formatCampaignReportData site cd rd vp).1.type = "variate") →
      (formatCampaignReportData site cd rd vp).1.child_ids = none ∧
      (formatCampaignReportData site cd rd vp).1.parent_id = none) := by
  rcases vp with - | v
  · refine ⟨rfl, ?_, fun _ => ⟨rfl, rfl⟩⟩
    intro habs
    rcases hcd rfl with h | h <;>
      · exfalso
        revert habs
        simp [formatCampaignReportData, h]
  · rcases hvp v rfl with ⟨ht, hcs, hpn⟩ | ⟨ht, hcn, pid, hps, hpe⟩
    · rcases hcsv : v.child_ids with - | l
      · rw [hcsv] at hcs
        cases hcs
      · refine ⟨?_, ?_, ?_⟩ <;> simp [formatCampaignReportData, hcsv, ht]
    · refine ⟨?_, ?_, ?_⟩ <;> simp [formatCampaignReportData, hcn, hps, hpe, ht]

/-- Witness for C6 with a `variate-parent` role carrying two child ids. -/
theorem formatCampaignReportData_type_and_variate_fields_witness :
    ((formatCampaignReportData "site1" sampleDoc sampleRawClean
        (some { type := "variate-parent", child_ids := some ["A", "B"] })).1.type =
      "variate-parent") ∧
    (((formatCampaignReportData "site1" sampleDoc sampleRawClean
        (some { type := "variate-parent", child_ids := some ["A", "B"] })).1.type =
        "variate-parent" ∨
      (formatCampaignReportData "site1" sampleDoc sampleRawClean
        (some { type := "variate-parent", child_ids := some ["A", "B"] })).1.type =
        "variate-child") →
      ((formatCampaignReportData "site1" sampleDoc sampleRawClean
          (some { type := "variate-parent", child_ids := some ["A", "B"] })).1.child_ids.isSome =
          true ∧
        (formatCampaignReportData "site1" sampleDoc sampleRawClean
          (some { type := "variate-parent", child_ids := some ["A", "B"] })).1.parent_id =
          none) ∨
      ((formatCampaignReportData "site1" sampleDoc sampleRawClean
          (some { type := "variate-parent", child_ids := some ["A", "B"] })).1.child_ids =
          none ∧
        (formatCampaignReportData "site1" sampleDoc sampleRawClean
          (some { type := "variate-parent", child_ids := some ["A", "B"] })).1.parent_id.isSome =
          true)) ∧
    (((formatCampaignReportData "site1" sampleDoc sampleRawClean
        (some { type := "variate-parent", child_ids := some ["A", "B"] })).1.type =
        "regular" ∨
      (formatCampaignReportData "site1" sampleDoc sampleRawClean
        (some { type := "variate-parent", child_ids := some ["A", "B"] })).1.type =
        "variate") →
      (formatCampaignReportData "site1" sampleDoc sampleRawClean
        (some { type := "variate-parent", child_ids := some ["A", "B"] })).1.child_ids =
        none ∧
      (formatCampaignReportData "site1" sampleDoc sampleRawClean
        (some { type := "variate-parent", child_ids := some ["A", "B"] })).1.parent_id =
        none) :=
  formatCampaignReportData_type_and_variate_fields "site1" sampleDoc sampleRawClean
    (some { type := "variate-parent", child_ids := some ["A", "B"] })
    (fun v hv => by cases hv; exact Or.inl ⟨rfl, rfl, rfl⟩)
    (fun hv => by cases hv)

theorem find?_map_replace (tl : List DbRecord) (op : ReplaceOneOp)
    (hrep : op.replacement._id = op.filter_id) (k : String) :
    List.find? (fun r => r._id == k)
        (tl.map (fun r => if r._id == op.filter_id then op.replacement else r)) =
      if op.filter_id = k then
        (if containsKey tl op.filter_id then some op.replacement else none)
      else List.find? (fun r => r._id == k) tl := by
  induction tl with
  | nil => simp [containsKey]
  | cons hd tl ih =>
    by_cases h1 : hd._id = op.filter_id
    · by_cases h2 : op.filter_id = k <;>
        simp_all [containsKey, List.find?_cons, hrep]
    · by_cases h2 : op.filter_id = k
      · have h3 : ¬ hd._id = k := fun h => h1 (h.trans h2.symm)
        simp_all [containsKey, List.find?_cons]
      · by_cases h3 : hd._id = k <;> simp_all [List.find?_cons]

theorem recLookup_replaceOneUpsert (s : List DbRecord) (op : ReplaceOneOp)
    (hrep : op.replacement._id = op.filter_id) (hup : op.upsert = true) (k : String) :
    recLookup (replaceOneUpsert s op) k =
      if op.filter_id = k then some op.replacement else recLookup s k := by
  rw [replaceOneUpsert]
  by_cases hc : containsKey s op.filter_id
  · rw [if_pos hc, recLookup, find?_map_replace s op hrep k, recLookup]
    by_cases hfk : op.filter_id = k
    · subst hfk
      simp [hc]
    · simp [hfk]
  · rw [if_neg hc, if_pos hup, recLookup, recLookup, List.find?_append]
    have hsnone : op.filter_id = k → List.find? (fun r => r._id == k) s = none := by
      intro hfk
      rw [List.find?_eq_none]
      intro r hr hrk
      apply hc
      rw [containsKey, List.any_eq_true]
      exact ⟨r, hr, by rw [hfk]; exact hrk⟩
    by_cases hfk : op.filter_id = k
    · simp [hsnone hfk, hfk, List.find?_cons, hrep]
    · have hrepk : (op.replacement._id == k) = false := by
        rw [hrep]
        exact beq_eq_false_iff_ne.mpr hfk
      rw [if_neg hfk]
      cases hfind : List.find? (fun r => r._id == k) s <;>
        simp [hfind, List.find?_cons, hrepk]

theorem recLookup_allBulk (ops : List ReplaceOneOp) (s : List DbRecord)
    (h : ∀ op ∈ ops, op.replacement._id = op.filter_id ∧ op.upsert = true) (k : String) :
    recLookup (allBulkUnOrdered s ops) k =
      match ops.reverse.find? (fun op => op.filter_id == k) with
      | some op => some op.replacement
      | none => recLookup s k := by
  induction ops generalizing s with
  | nil => simp [allBulkUnOrdered]
  | cons op rest ih =>
    obtain ⟨hrep, hup⟩ := h op (List.mem_cons_self op rest)
    have hrest : ∀ o ∈ rest, o.replacement._id = o.filter_id ∧ o.upsert = true :=
      fun o ho => h o (List.mem_cons_of_mem op ho)
    rw [allBulkUnOrdered, List.foldl_cons, ← allBulkUnOrdered,
      ih (replaceOneUpsert s op) hrest, List.reverse_cons, List.find?_append]
    cases hfind : rest.reverse.find? (fun o => o.filter_id == k) with
    | some o => simp [hfind]
    | none =>
      rw [recLookup_replaceOneUpsert s op hrep hup k]
      by_cases hfk : op.filter_id = k
      · simp [hfind, List.find?_cons, hfk]
      · simp [hfind, List.find?_cons, beq_eq_false_iff_ne.mpr hfk, hfk]

/-- C7: `importData` rejects with `invalid-type-<kind>` for every kind other
than `campaignData`/`campaignReport` and performs no storage write (the
database is only part of a returned `ok` state, and the error result carries
none); for the two valid kinds it performs exactly one unordered bulk
upsert-by-id on the corresponding collection, leaving the other collection
untouched, the bulk behaving as replace-if-exists / insert-if-absent on the
record `_id` (lookup of every key afterwards yields the last imported record
with that id, or the previously stored one when no imported record has the
key). -/
theorem importData_kind_spec (db : DB) (recs : List DbRecord) :
    (∀ t : String, t ≠ "campaignData" → t ≠ "campaignReport" →
      importData db t recs = .error ("invalid-type-" ++ t)) ∧
    (importData db "campaignData" recs =
      .ok { db with
        campaignData := allBulkUnOrdered db.campaignData (recs.map mkReplaceOp) }) ∧
    (importData db "campaignReport" recs =
      .ok { db with
        campaignReport := allBulkUnOrdered db.campaignReport (recs.map mkReplaceOp) }) ∧
    (∀ k, recLookup (allBulkUnOrdered db.campaignData (recs.map mkReplaceOp)) k =
      match recs.reverse.find? (fun r => r._id == k) with
      | some r => some r
      | none => recLookup db.campaignData k) ∧
    (∀ k, recLookup (allBulkUnOrdered db.campaignReport (recs.map mkReplaceOp)) k =
      match recs.reverse.find? (fun r => r._id == k) with
      | some r => some r
      | none => recLookup db.campaignReport k) := by
  have hops : ∀ op ∈ recs.map mkReplaceOp,
      op.replacement._id = op.filter_id ∧ op.upsert = true := by
    intro op hop
    rw [List.mem_map] at hop
    obtain ⟨r, -, rfl⟩ := hop
    exact ⟨rfl, rfl⟩
  have hchar : ∀ (s : List DbRecord) (k : String),
      recLookup (allBulkUnOrdered s (recs.map mkReplaceOp)) k =
        match recs.reverse.find? (fun r => r._id == k) with
        | some r => some r
        | none => recLookup s k := by
    intro s k
    rw [recLookup_allBulk (recs.map mkReplaceOp) s hops k]
    rw [← List.map_reverse, List.find?_map,
      show ((fun op : ReplaceOneOp => op.filter_id == k) ∘ mkReplaceOp) =
        (fun r : DbRecord => r._id == k) from rfl]
    cases hfind : recs.reverse.find? (fun r => r._id == k) with
    | some r => rfl
    | none => rfl
  refine ⟨?_, by simp [importData], by simp [importData], hchar db.campaignData,
    hchar db.campaignReport⟩
  intro t h1 h2
  simp [importData, h1, h2]

/-- Witness for C7 at the unrecognized kind `foo`. -/
theorem importData_kind_spec_witness :
    importData sampleDB "foo" [sampleRec] = .error ("invalid-type-" ++ "foo") :=
  (importData_kind_spec sampleDB [sampleRec]).1 "foo" (by decide) (by decide)

theorem map_congr_mem {α β : Type} (l : List α) (f g : α → β)
    (h : ∀ x ∈ l, f x = g x) : l.map f = l.map g := by
  induction l with
  | nil => rfl
  | cons hd tl ih =>
    rw [List.map_cons, List.map_cons, h hd (List.mem_cons_self hd tl),
      ih (fun x hx => h x (List.mem_cons_of_mem hd hx))]

theorem map_id_of_mem {α : Type} (l : List α) (f : α → α)
    (h : ∀ x ∈ l, f x = x) : l.map f = l := by
  rw [map_congr_mem l f id h, List.map_id]

theorem not_containsKey_forall (s : List DbRecord) (k : String)
    (hc : ¬ containsKey s k = true) : ∀ r ∈ s, r._id ≠ k := by
  intro r hr heq
  apply hc
  rw [containsKey, List.any_eq_true]
  exact ⟨r, hr, beq_iff_eq.mpr heq⟩

theorem mem_replaceOneUpsert_self (s : List DbRecord) (op : ReplaceOneOp)
    (hrep : op.replacement._id = op.filter_id) (hup : op.upsert = true)
    (x : DbRecord) (hx : x ∈ replaceOneUpsert s op) (hid : x._id = op.filter_id) :
    x = op.replacement := by
  rw [replaceOneUpsert] at hx
  by_cases hc : containsKey s op.filter_id
  · rw [if_pos hc, List.mem_map] at hx
    obtain ⟨y, hy, rfl⟩ := hx
    by_cases hyid : (y._id == op.filter_id) = true
    · rw [if_pos hyid]
    · rw [if_neg hyid] at hid ⊢
      exact absurd (beq_iff_eq.mpr hid) hyid
  · rw [if_neg hc, if_pos hup, List.mem_append] at hx
    rcases hx with hx | hx
    · exact absurd hid (not_containsKey_forall s op.filter_id hc x hx)
    · simpa using hx

theorem containsKey_replaceOneUpsert_self (s : List DbRecord) (op : ReplaceOneOp)
    (hrep : op.replacement._id = op.filter_id) (hup : op.upsert = true) :
    containsKey (replaceOneUpsert s op) op.filter_id = true := by
  rw [replaceOneUpsert]
  by_cases hc : containsKey s op.filter_id
  · rw [if_pos hc, containsKey, List.any_eq_true]
    rw [containsKey, List.any_eq_true] at hc
    obtain ⟨r, hr, hrk⟩ := hc
    refine ⟨if r._id == op.filter_id then op.replacement else r,
      List.mem_map_of_mem _ hr, ?_⟩
    rw [if_pos hrk]
    exact beq_iff_eq.mpr hrep
  · rw [if_neg hc, if_pos hup, containsKey, List.any_eq_true]
    exact ⟨op.replacement, by simp, beq_iff_eq.mpr hrep⟩

theorem saturated_preserved (s : List DbRecord) (op : ReplaceOneOp)
    (hrep : op.replacement._id = op.filter_id) (hup : op.upsert = true)
    (k : String) (r : DbRecord) (hk : k ≠ op.filter_id)
    (hall : ∀ x ∈ s, x._id = k → x = r) (hck : containsKey s k = true) :
    (∀ x ∈ replaceOneUpsert s op, x._id = k → x = r) ∧
      containsKey (replaceOneUpsert s op) k = true := by
  rw [replaceOneUpsert]
  by_cases hc : containsKey s op.filter_id
  · rw [if_pos hc]
    constructor
    · intro x hx hid
      rw [List.mem_map] at hx
      obtain ⟨y, hy, rfl⟩ := hx
      by_cases hyid : (y._id == op.filter_id) = true
      · rw [if_pos hyid] at hid ⊢
        exact absurd (hid.symm.trans hrep) hk
      · rw [if_neg hyid] at hid ⊢
        exact hall y hy hid
    · rw [containsKey, List.any_eq_true] at hck ⊢
      obtain ⟨y, hy, hyk⟩ := hck
      have hyid : ¬ (y._id == op.filter_id) = true := by
        intro hcontra
        exact hk ((beq_iff_eq.mp hyk).symm.trans (beq_iff_eq.mp hcontra))
      exact ⟨if y._id == op.filter_id then op.replacement else y,
        List.mem_map_of_mem _ hy, by rw [if_neg hyid]; exact hyk⟩
  · rw [if_neg hc, if_pos hup]
    constructor
    · intro x hx hid
      rw [List.mem_append] at hx
      rcases hx with hx | hx
      · exact hall x hx hid
      · exfalso
        have hxr : x = op.replacement := by simpa using hx
        exact hk (((hxr ▸ hid : op.replacement._id = k)).symm.trans hrep)
    · rw [containsKey, List.any_eq_true] at hck ⊢
      obtain ⟨y, hy, hyk⟩ := hck
      exact ⟨y, List.mem_append_left _ hy, hyk⟩

theorem saturated_preserved_allBulk (ops : List ReplaceOneOp) :
    ∀ (s : List DbRecord) (k : String) (r : DbRecord),
      (∀ op ∈ ops, op.replacement._id = op.filter_id ∧ op.upsert = true) →
      (∀ op ∈ ops, k ≠ op.filter_id) →
      (∀ x ∈ s, x._id = k → x = r) → containsKey s k = true →
      (∀ x ∈ allBulkUnOrdered s ops, x._id = k → x = r) ∧
        containsKey (allBulkUnOrdered s ops) k = true := by
  induction ops with
  | nil =>
    intro s k r _ _ hall hck
    exact ⟨hall, hck⟩
  | cons op rest ih =>
    intro s k r hops hk hall hck
    obtain ⟨hrep, hup⟩ := hops op (List.mem_cons_self op rest)
    obtain ⟨h1, h2⟩ := saturated_preserved s op hrep hup k r
      (hk op (List.mem_cons_self op rest)) hall hck
    exact ih (replaceOneUpsert s op) k r
      (fun o ho => hops o (List.mem_cons_of_mem op ho))
      (fun o ho => hk o (List.mem_cons_of_mem op ho)) h1 h2

theorem replaceOneUpsert_eq_self (u : List DbRecord) (op : ReplaceOneOp)
    (hall : ∀ x ∈ u, x._id = op.filter_id → x = op.replacement)
    (hck : containsKey u op.filter_id = true) :
    replaceOneUpsert u op = u := by
  rw [replaceOneUpsert, if_pos hck]
  apply map_id_of_mem
  intro x hx
  by_cases h : (x._id == op.filter_id) = true
  · rw [if_pos h]
    exact (hall x hx (beq_iff_eq.mp h)).symm
  · rw [if_neg h]

theorem allBulk_cons (s : List DbRecord) (op : ReplaceOneOp) (rest : List ReplaceOneOp) :
    allBulkUnOrdered s (op :: rest) = allBulkUnOrdered (replaceOneUpsert s op) rest := rfl

theorem allBulk_idem (ops : List ReplaceOneOp) :
    ∀ s : List DbRecord,
      (∀ op ∈ ops, op.replacement._id = op.filter_id ∧ op.upsert = true) →
      (ops.map ReplaceOneOp.filter_id).Nodup →
      allBulkUnOrdered (allBulkUnOrdered s ops) ops = allBulkUnOrdered s ops := by
  induction ops with
  | nil =>
    intro s _ _
    rfl
  | cons op rest ih =>
    intro s hops hnd
    obtain ⟨hrep, hup⟩ := hops op (List.mem_cons_self op rest)
    have hrest : ∀ o ∈ rest, o.replacement._id = o.filter_id ∧ o.upsert = true :=
      fun o ho => hops o (List.mem_cons_of_mem op ho)
    rw [List.map_cons, List.nodup_cons] at hnd
    obtain ⟨hnotin, hndrest⟩ := hnd
    have hknot : ∀ o ∈ rest, op.filter_id ≠ o.filter_id := by
      intro o ho heq
      exact hnotin (heq ▸ List.mem_map_of_mem ReplaceOneOp.filter_id ho)
    obtain ⟨hsat, hck⟩ := saturated_preserved_allBulk rest (replaceOneUpsert s op)
      op.filter_id op.replacement hrest hknot
      (fun x hx hid => mem_replaceOneUpsert_self s op hrep hup x hx hid)
      (containsKey_replaceOneUpsert_self s op hrep hup)
    rw [allBulk_cons s op rest, allBulk_cons (allBulkUnOrdered (replaceOneUpsert s op) rest) op rest,
      replaceOneUpsert_eq_self _ op hsat hck]
    exact ih (replaceOneUpsert s op) hrest hndrest

theorem keysNodup_replaceOneUpsert (s : List DbRecord) (op : ReplaceOneOp)
    (hrep : op.replacement._id = op.filter_id)
    (h : (s.map DbRecord._id).Nodup) :
    ((replaceOneUpsert s op).map DbRecord._id).Nodup := by
  rw [replaceOneUpsert]
  by_cases hc : containsKey s op.filter_id
  · rw [if_pos hc, List.map_map]
    have heq : s.map (DbRecord._id ∘ fun r =>
        if r._id == op.filter_id then op.replacement else r) = s.map DbRecord._id := by
      apply map_congr_mem
      intro x hx
      by_cases hxid : (x._id == op.filter_id) = true
      · simp only [Function.comp]
        rw [if_pos hxid, hrep, beq_iff_eq.mp hxid]
      · simp only [Function.comp]
        rw [if_neg hxid]
    rw [heq]
    exact h
  · by_cases hu : op.upsert = true
    · rw [if_neg hc, if_pos hu, List.map_append]
      rw [List.nodup_append]
      refine ⟨h, List.nodup_singleton _, ?_⟩
      intro a ha hb
      have hb' : a = op.filter_id := by
        simpa [hrep] using hb
      rw [List.mem_map] at ha
      obtain ⟨x, hx, rfl⟩ := ha
      exact not_containsKey_forall s op.filter_id hc x hx hb'
    · rw [if_neg hc, if_neg hu]
      exact h

theorem keysNodup_allBulk (ops : List ReplaceOneOp) :
    ∀ s : List DbRecord,
      (∀ op ∈ ops, op.replacement._id = op.filter_id) →
      (s.map DbRecord._id).Nodup →
      ((allBulkUnOrdered s ops).map DbRecord._id).Nodup := by
  induction ops with
  | nil =>
    intro s _ h
    exact h
  | cons op rest ih =>
    intro s hops h
    rw [allBulk_cons]
    exact ih (replaceOneUpsert s op) (fun o ho => hops o (List.mem_cons_of_mem op ho))
      (keysNodup_replaceOneUpsert s op (hops op (List.mem_cons_self op rest)) h)

/-- C9: the bulk upsert done by `importData` is idempotent: importing the
same record set (with pairwise-distinct record ids, a record SET) a second
time under the same valid kind returns exactly the storage state of the
first call; moreover a collection whose keys were distinct keeps distinct
keys — no duplicate keys are created. -/
theorem importData_idempotent (db db2 : DB) (recs : List DbRecord)
    (hnd : (recs.map DbRecord._id).Nodup) :
    (importData db "campaignData" recs = .ok db2 →
      importData db2 "campaignData" recs = .ok db2) ∧
    (importData db "campaignReport" recs = .ok db2 →
      importData db2 "campaignReport" recs = .ok db2) ∧
    (importData db "campaignData" recs = .ok db2 →
      (db.campaignData.map DbRecord._id).Nodup →
      (db2.campaignData.map DbRecord._id).Nodup) ∧
    (importData db "campaignReport" recs = .ok db2 →
      (db.campaignReport.map DbRecord._id).Nodup →
      (db2.campaignReport.map DbRecord._id).Nodup) := by
  have hops : ∀ op ∈ recs.map mkReplaceOp,
      op.replacement._id = op.filter_id ∧ op.upsert = true := by
    intro op hop
    rw [List.mem_map] at hop
    obtain ⟨r, -, rfl⟩ := hop
    exact ⟨rfl, rfl⟩
  have hops1 : ∀ op ∈ recs.map mkReplaceOp, op.replacement._id = op.filter_id :=
    fun op hop => (hops op hop).1
  have hndops : ((recs.map mkReplaceOp).map ReplaceOneOp.filter_id).Nodup := by
    rw [List.map_map, show (ReplaceOneOp.filter_id ∘ mkReplaceOp) = DbRecord._id from rfl]
    exact hnd
  have hcd : importData db "campaignData" recs =
      .ok { db with
        campaignData := allBulkUnOrdered db.campaignData (recs.map mkReplaceOp) } := by
    simp [importData]
  have hcr : importData db "campaignReport" recs =
      .ok { db with
        campaignReport := allBulkUnOrdered db.campaignReport (recs.map mkReplaceOp) } := by
    simp [importData]
  refine ⟨?_, ?_, ?_, ?_⟩
  · intro h
    rw [hcd] at h
    injection h with h
    subst h
    have hrun : importData
        { db with campaignData := allBulkUnOrdered db.campaignData (recs.map mkReplaceOp) }
        "campaignData" recs =
        .ok { db with campaignData := (allBulkUnOrdered (allBulkUnOrdered db.campaignData (recs.map mkReplaceOp)) (recs.map mkReplaceOp)) } := by
      simp [importData]
    rw [hrun, allBulk_idem (recs.map mkReplaceOp) db.campaignData hops hndops]
  · intro h
    rw [hcr] at h
    injection h with h
    subst h
    have hrun : importData
        { db with campaignReport := allBulkUnOrdered db.campaignReport (recs.map mkReplaceOp) }
        "campaignReport" recs =
        .ok { db with campaignReport := (allBulkUnOrdered (allBulkUnOrdered db.campaignReport (recs.map mkReplaceOp)) (recs.map mkReplaceOp)) } := by
      simp [importData]
    rw [hrun, allBulk_idem (recs.map mkReplaceOp) db.campaignReport hops hndops]
  · intro h hnodup
    rw [hcd] at h
    injection h with h
    subst h
    exact keysNodup_allBulk (recs.map mkReplaceOp) db.campaignData hops1 hnodup
  · intro h hnodup
    rw [hcr] at h
    injection h with h
    subst h
    exact keysNodup_allBulk (recs.map mkReplaceOp) db.campaignReport hops1 hnodup

/-- Witness for C9: importing `[sampleRec]` into the state already produced
by a first import returns that state unchanged. -/
theorem importData_idempotent_witness :
    importData { campaignData := [sampleRec], campaignReport := [] } "campaignData"
        [sampleRec] =
      .ok { campaignData := [sampleRec], campaignReport := [] } :=
  (importData_idempotent sampleDB { campaignData := [sampleRec], campaignReport := [] }
    [sampleRec] (by decide)).1 (by decide)

theorem windowsGo_join {α : Type} (l : List α) :
    ∀ acc cnt, l ≠ [] → (windowsGo acc cnt l).flatten = acc ++ l := by
  induction l with
  | nil =>
    intro acc cnt h
    exact absurd rfl h
  | cons x rest ih =>
    intro acc cnt _
    rw [windowsGo]
    by_cases hc : MAX_CONCURRENT_CALLS - 1 ≤ cnt ∨ rest.isEmpty = true
    · rw [if_pos hc]
      by_cases hr : rest = []
      · subst hr
        simp [windowsGo]
      · rw [List.flatten_cons, ih [] 0 hr]
        simp
    · rw [if_neg hc]
      have hr : rest ≠ [] := by
        intro h
        exact hc (Or.inr (by rw [h]; rfl))
      rw [ih (acc ++ [x]) (cnt + 1) hr]
      simp

theorem windowsGo_le {α : Type} (l : List α) :
    ∀ acc cnt, acc.length = cnt → cnt ≤ MAX_CONCURRENT_CALLS - 1 →
      ∀ w ∈ windowsGo acc cnt l, w.length ≤ MAX_CONCURRENT_CALLS := by
  induction l with
  | nil =>
    intro acc cnt _ _ w hw
    simp [windowsGo] at hw
  | cons x rest ih =>
    intro acc cnt hlen hcnt w hw
    rw [windowsGo] at hw
    have hmax : MAX_CONCURRENT_CALLS = 10 := rfl
    by_cases hc : MAX_CONCURRENT_CALLS - 1 ≤ cnt ∨ rest.isEmpty = true
    · rw [if_pos hc] at hw
      rcases List.mem_cons.mp hw with rfl | hw'
      · rw [List.length_append, hlen, List.length_singleton]
        omega
      · exact ih [] 0 rfl (by omega) w hw'
    · rw [if_neg hc] at hw
      rcases not_or.mp hc with ⟨h1, -⟩
      exact ih (acc ++ [x]) (cnt + 1) (by simp [hlen]) (by omega) w hw

/-- C8: the batch fetcher issues any task list in consecutive fixed windows
of at most `MAX_CONCURRENT_CALLS = 10` concurrently in-flight requests, and
a window is fully awaited before the next window starts (the windows
concatenate, in order, to exactly the original task list — no task is
dropped, duplicated or moved across a window boundary); in particular 25
tasks run as exactly 3 windows of sizes 10, 10, 5. -/
theorem batchWindows_spec :
    (∀ (α : Type) (tasks : List α),
      (∀ w ∈ batchWindows tasks, w.length ≤ MAX_CONCURRENT_CALLS) ∧
      (batchWindows tasks).flatten = tasks) ∧
    (batchWindows (List.range 25)).map List.length = [10, 10, 5] := by
  constructor
  · intro α tasks
    constructor
    · exact windowsGo_le tasks [] 0 rfl (by omega)
    · rcases h : tasks with - | ⟨x, rest⟩
      · rfl
      · exact windowsGo_join (x :: rest) [] 0 (by simp)
  · decide

/-- Witness for C8: the single window of a 3-task list is within the
concurrency ceiling. -/
theorem batchWindows_spec_witness :
    ([0, 1, 2] : List Nat).length ≤ MAX_CONCURRENT_CALLS :=
  (batchWindows_spec.1 Nat [0, 1, 2]).1 [0, 1, 2] (by decide)

/-- C10: whenever `startTime` is not a string, `fetchReportData` fails with
the `TypeError` from `startTime.substring` before any campaign selection or
report fetch happens, even when `campaignId` is provided; neither the
campaignId-only path nor the all-campaigns-for-site path is reachable
without a string `startTime`. -/
theorem fetchReportData_requires_string_startTime (db : List CampaignDoc)
    (audienceId : String → String) (getReport : String → RawReport)
    (site : String) (campaignId : Option String) :
    fetchReportData db audienceId getReport site none campaignId =
      .error startTimeTypeError := rfl

/-- C1 (evaluation at the failing input): the module's own documentation
(lines 317-319) declares `site`, `startTime` and `campaignId` optional —
campaignId-only fetches one campaign, no argument fetches every campaign of
the site — but line 324 reads `startTime.substring` unconditionally, so
both calls crash with a `TypeError` before any campaign is selected. -/
theorem fetchReportData_missing_startTime_crash :
    fetchReportData [sampleDoc] (fun _ => "list1")
        (fun i => { sampleRawClean with id := i }) "site1" none (some "camp1") =
      .error startTimeTypeError ∧
    fetchReportData [sampleDoc] (fun _ => "list1")
        (fun i => { sampleRawClean with id := i }) "site1" none none =
      .error startTimeTypeError :=
  ⟨rfl, rfl⟩

theorem fmtChild_fields (site : String) (d : CampaignDoc) (rr : RawReport)
    (pid : String) (hpid : pid ≠ "") :
    ((formatCampaignReportData site d rr
      (some { type := "variate-child", parent_id := some pid })).1.type = "variate-child") ∧
    ((formatCampaignReportData site d rr
      (some { type := "variate-child", parent_id := some pid })).1.parent_id = some pid) ∧
    ((formatCampaignReportData site d rr
      (some { type := "variate-child", parent_id := some pid })).1.child_ids = none) ∧
    ((formatCampaignReportData site d rr
      (some { type := "variate-child", parent_id := some pid })).1._id = rr.id) := by
  refine ⟨?_, ?_, ?_, ?_⟩ <;> simp [formatCampaignReportData, hpid]

/-- C2: running `fetchReportData` against one stored variate campaign with
N combination entries yields exactly N + 1 records: first one
`variate-parent` record whose `child_ids` is the list of the N combination
child ids in combination order, then N `variate-child` records, one per
child id in the same order, each with `parent_id` equal to the parent
campaign's id (and each built from the individually fetched child
report). -/
theorem fetchReportData_variate_counts (d : CampaignDoc)
    (audienceId : String → String) (getReport : String → RawReport)
    (site st : String) (hvar : d.type = "variate") (hid : d._id ≠ "") :
    ∃ reps,
      fetchReportData [d] audienceId getReport site (some st) (some d._id) = .ok reps ∧
      reps.map (fun r => (r.type, r.parent_id, r.child_ids, r._id)) =
        ("variate-parent", none,
          some (d.variate_settings.combinations.map (fun c => c.id)),
          (getReport d._id).id) ::
        d.variate_settings.combinations.map (fun c =>
          ("variate-child", some d._id, none, (getReport c.id).id)) ∧
      reps.length = d.variate_settings.combinations.length + 1 := by
  have hdocs : fetchReportDocs [d] audienceId site (some st) (some d._id) = .ok [d] := by
    simp [fetchReportDocs]
  have hmc : fetchMcReportData getReport [d] = [getReport d._id] := rfl
  have hbuild : buildReportData site getReport [d] [getReport d._id] =
      (formatCampaignReportData site d (getReport d._id)
        (some { type := "variate-parent",
                child_ids := some (d.variate_settings.combinations.map
                  (fun item => item.id)) })).1 ::
      (d.variate_settings.combinations.map (fun item => item.id)).map (fun c =>
        (formatCampaignReportData site d (getReport c)
          (some { type := "variate-child", parent_id := some d._id })).1) := by
    rw [buildReportData, if_pos hvar]
    simp [buildReportData]
  refine ⟨buildReportData site getReport [d] (fetchMcReportData getReport [d]), ?_, ?_, ?_⟩
  · simp [fetchReportData, hdocs]
  · rw [hmc, hbuild, List.map_cons, List.map_map]
    congr 1
    · rw [List.map_map]
      apply map_congr_mem
      intro c hc
      obtain ⟨h1, h2, h3, h4⟩ := fmtChild_fields site d (getReport c.id) d._id hid
      simp only [Function.comp]
      rw [h1, h2, h3, h4]
  · rw [hmc, hbuild]
    simp

/-- Witness for C2: two combinations produce exactly three records, parent
first, children in combination order. -/
theorem fetchReportData_variate_counts_witness :
    ∃ reps,
      fetchReportData [sampleVariateDoc] (fun _ => "list1")
          (fun i => { sampleRawClean with id := i }) "site1" (some "2021-04-01")
          (some "campV") = .ok reps ∧
      reps.map (fun r => (r.type, r.parent_id, r.child_ids, r._id)) =
        [("variate-parent", none, some ["A", "B"], "campV"),
         ("variate-child", some "campV", none, "A"),
         ("variate-child", some "campV", none, "B")] ∧
      reps.length = 3 := by
  obtain ⟨reps, h1, h2, h3⟩ := fetchReportData_variate_counts sampleVariateDoc
    (fun _ => "list1") (fun i => { sampleRawClean with id := i }) "site1" "2021-04-01"
    rfl (by decide)
  refine ⟨reps, h1, ?_, h3⟩
  rw [h2]
  decide
